import Mathlib

/-!
Shallow embedding of the Lua lexer of `osa1/lexer_bench`
(`src/src/lua/lexer_lexgen.rs`, `src/src/lua/error.rs`), with theorems
checking the natural-language specification against it.

The lexer is written with the `lexgen` lexer-generator macro.  The embedding
translates the generated automaton's behaviour rule by rule: each `rule`
block becomes a case of a fuel-indexed interpreter; pattern dispatch follows
lexgen's maximal-munch semantics (the longest matching pattern wins, with
fallback to the last accepting match — in particular the `_` wildcard of the
`String` rule accepts a lone `\`), and reaching end of input in the middle
of a lexeme with no accepting state is lexgen's `InvalidToken` error.

Machine integers are modelled as `Nat` with explicit reduction where the
Rust code can overflow: the `u8` arithmetic of decimal escapes carries
`% 256` (release-profile wrapping; debug builds would abort) and the `u32`
unicode-codepoint accumulator carries `% 2 ^ 32`.  A Rust `panic!` /
`unwrap()` failure is a distinguished outcome `RustPanic`, separate from
every `LexerError` value.
-/

namespace LexerBench

/-- A byte value; producers keep results below 256 explicitly. -/
abbrev Byte := Nat

/-- `Quote` from `lexer_lexgen.rs`: which quote character opened the current
short string. -/
inductive Quote
  | Single
  | Double
deriving DecidableEq, Repr

/-- `LexerState` from `lexer_lexgen.rs` (lines 10–25): the mutable scanning
context threaded through the rules. -/
structure LexerState where
  /-- Number of opening `=`s seen when parsing a long string. -/
  long_string_opening_eqs : Nat := 0
  /-- Number of closing `=`s seen when parsing a long string. -/
  long_string_closing_eqs : Nat := 0
  /-- When parsing a short string, whether it started with `"` or `'`. -/
  short_string_delim : Quote := Quote.Single
  /-- Buffer for strings (a byte vector in the source). -/
  string_buf : List Byte := []
  /-- Whether the current long bracket is a comment (no token) or a string. -/
  in_comment : Bool := false
  /-- Unicode codepoint being parsed (`u32` in the source). -/
  unicode_codepoint : Nat := 0
deriving DecidableEq, Repr

/-- `LexerState::default()`. -/
def initState : LexerState := {}

/-- `LexerError` from `src/src/lua/error.rs`.  The `IOError` payload
(`std::io::Error`) is elided: it never arises when lexing an in-memory
buffer. -/
inductive LexerError
  | UnfinishedShortString (c : Byte)
  | UnexpectedCharacter (c : Byte)
  | HexDigitExpected
  | EscapeUnicodeStart
  | EscapeUnicodeEnd
  | EscapeUnicodeInvalid
  | EscapeDecimalTooLarge
  | InvalidEscape
  | InvalidLongStringDelimiter
  | UnfinishedLongString
  | BadNumber
  | IOError
deriving DecidableEq, Repr

/-- How a lexing run can fail: lexgen's built-in `InvalidToken` (no pattern
of the current rule matches, including end of input in the middle of a
lexeme), a user error produced by a fallible (`=?`) action, or a Rust
`panic!` (an `unwrap()` or overflow abort — not a returned value in Rust,
modelled as a distinguished outcome). -/
inductive LexgenError
  | InvalidToken
  | UserError (e : LexerError)
  | RustPanic
deriving DecidableEq, Repr

/-- Tokens.  The variant set is the one used by `lexer_lexgen.rs`
(`src/src/lua/token.rs` itself is not part of the snapshot; payloads of
`Integer`/`Float` follow the spec's data model §3: a 64-bit integer and a
floating value — the float is modelled with exact rational arithmetic). -/
inductive Token
  | Add | Minus | Mul | Div | IDiv | Mod | Pow | Len
  | Equal | NotEqual | LessEqual | GreaterEqual | LessThan | GreaterThan
  | Assign | LeftParen | RightParen | LeftBrace | RightBrace
  | LeftBracket | RightBracket | SemiColon | Colon | Comma
  | Dot | Concat | Dots
  | BitAnd | BitOr | BitNotXor | ShiftRight | ShiftLeft | DoubleColon
  | And | Break | Do | Else | ElseIf | End | False | For | Function
  | If | In | Local | Nil | Not | Or | Repeat | Return | Then | True
  | Until | While | Goto
  | Name (bytes : List Byte)
  | String (bytes : List Byte)
  | Integer (n : Int)
  | Float (q : ℚ)
deriving Repr

/-! ### UTF-8 encoding

`char::encode_utf8` of the Rust standard library, used by the `String`
wildcard handler and the `UnicodeCodepoint` close handler, written with
division/remainder by powers of two. -/

/-- UTF-8 encoding of a Unicode scalar value. -/
def utf8Encode (c : Nat) : List Byte :=
  if c < 0x80 then [c]
  else if c < 0x800 then
    [0xC0 + c / 64, 0x80 + c % 64]
  else if c < 0x10000 then
    [0xE0 + c / 4096, 0x80 + c / 64 % 64, 0x80 + c % 64]
  else
    [0xF0 + c / 262144, 0x80 + c / 4096 % 64, 0x80 + c / 64 % 64, 0x80 + c % 64]

/-- UTF-8 decoding of a single scalar value, with range, continuation-byte
and overlong-form checks. -/
def utf8Decode : List Byte → Option Nat
  | [b0] => if b0 < 0x80 then some b0 else none
  | [b0, b1] =>
    if 0xC0 ≤ b0 ∧ b0 < 0xE0 ∧ 0x80 ≤ b1 ∧ b1 < 0xC0 ∧
        0x80 ≤ (b0 - 0xC0) * 64 + (b1 - 0x80) then
      some ((b0 - 0xC0) * 64 + (b1 - 0x80))
    else none
  | [b0, b1, b2] =>
    if 0xE0 ≤ b0 ∧ b0 < 0xF0 ∧ 0x80 ≤ b1 ∧ b1 < 0xC0 ∧ 0x80 ≤ b2 ∧ b2 < 0xC0 ∧
        0x800 ≤ (b0 - 0xE0) * 4096 + (b1 - 0x80) * 64 + (b2 - 0x80) then
      some ((b0 - 0xE0) * 4096 + (b1 - 0x80) * 64 + (b2 - 0x80))
    else none
  | [b0, b1, b2, b3] =>
    if 0xF0 ≤ b0 ∧ b0 < 0xF8 ∧ 0x80 ≤ b1 ∧ b1 < 0xC0 ∧ 0x80 ≤ b2 ∧ b2 < 0xC0 ∧
        0x80 ≤ b3 ∧ b3 < 0xC0 ∧
        0x10000 ≤ (b0 - 0xF0) * 262144 + (b1 - 0x80) * 4096 + (b2 - 0x80) * 64 + (b3 - 0x80) then
      some ((b0 - 0xF0) * 262144 + (b1 - 0x80) * 4096 + (b2 - 0x80) * 64 + (b3 - 0x80))
    else none
  | _ => none

/-- Valid Unicode scalar values: exactly the domain where
`char::try_from : u32 -> Result<char, _>` succeeds. -/
def isValidScalar (c : Nat) : Bool :=
  decide (c < 0x110000 ∧ ¬ (0xD800 ≤ c ∧ c ≤ 0xDFFF))

/-- `str::as_bytes`: the UTF-8 byte sequence of a character sequence. -/
def strBytes (l : List Char) : List Byte :=
  (l.map fun c => utf8Encode c.toNat).flatten

/-! ### Character classes of the `lexer!` macro -/

/-- `let digit = ['0'-'9']`. -/
def isDigit (c : Char) : Bool := decide ('0' ≤ c ∧ c ≤ '9')

/-- `let hex_digit = ['a'-'f' 'A'-'F' '0'-'9']`. -/
def isHexDigit (c : Char) : Bool :=
  isDigit c || decide ('a' ≤ c ∧ c ≤ 'f') || decide ('A' ≤ c ∧ c ≤ 'F')

/-- `let var_init = ['a'-'z' 'A'-'Z' '_']`. -/
def isVarInit (c : Char) : Bool :=
  decide ('a' ≤ c ∧ c ≤ 'z') || decide ('A' ≤ c ∧ c ≤ 'Z') || c == '_'

/-- `let var_subseq = $var_init | ['0'-'9']`. -/
def isVarSubseq (c : Char) : Bool := isVarInit c || isDigit c

/-- Hex-digit character to value, as computed by the `$hex_digit` handler of
rule `UnicodeCodepoint` (lines 365–371); `from_hex_digit` used by the `\x`
handler computes the same mapping. -/
def hexDigitVal (c : Char) : Nat :=
  if '0' ≤ c ∧ c ≤ '9' then c.toNat - '0'.toNat
  else if 'a' ≤ c ∧ c ≤ 'f' then c.toNat - 'a'.toNat + 10
  else c.toNat - 'A'.toNat + 10

/-- Decimal-digit character to value (`byte - b'0'` in the escape handlers). -/
def decDigitVal (c : Char) : Nat := c.toNat - '0'.toNat

/-- Big-endian positional value of a digit-character list. -/
def digitsVal (base : Nat) (dval : Char → Nat) (l : List Char) : Nat :=
  l.foldl (fun a c => a * base + dval c) 0

/-! ### Numeral lexemes

Greedy (maximal-munch) matching of the three numeral regexes of rule
`Init` (lines 147–160).  Each matcher returns the matched lexeme and the
rest of the input. -/

/-- Greedy match of the optional exponent group
`((mark) ('+'|'-')? dig+)?` of the numeral regexes; an incomplete group
(marker without following digits) matches nothing, per maximal-munch
backtracking to the last accepting position. -/
def expPart (isMark isDig : Char → Bool) (l : List Char) : List Char × List Char :=
  match l with
  | e :: s :: rest2 =>
    if isMark e then
      if s = '+' ∨ s = '-' then
        let p := rest2.span isDig
        if p.1.isEmpty then ([], l) else (e :: s :: p.1, p.2)
      else
        let p := (s :: rest2).span isDig
        if p.1.isEmpty then ([], l) else (e :: p.1, p.2)
    else ([], l)
  | _ => ([], l)

/-- Greedy match of `$digit+ '.'? $digit* (('e'|'E') ('+'|'-')? $digit+)?`,
called on input whose first character is a digit. -/
def decNumeralLexeme (l : List Char) : List Char × List Char :=
  let p1 := l.span isDigit
  let pDot : List Char × List Char :=
    match p1.2 with
    | '.' :: r => (['.'], r)
    | _ => ([], p1.2)
  let p2 := pDot.2.span isDigit
  let pe := expPart (fun c => c == 'e' || c == 'E') isDigit p2.2
  (p1.1 ++ pDot.1 ++ p2.1 ++ pe.1, pe.2)

/-- Greedy match of `'.' $digit+ (('e'|'E') ('+'|'-')? $digit+)?`, called
with the input after the `.`, whose first character is a digit. -/
def dotNumeralLexeme (l : List Char) : List Char × List Char :=
  let p := l.span isDigit
  let pe := expPart (fun c => c == 'e' || c == 'E') isDigit p.2
  ('.' :: (p.1 ++ pe.1), pe.2)

/-- Greedy match of
`'0' ('x'|'X') $hex_digit? '.'? $hex_digit* (('p'|'P') ('+'|'-')? $hex_digit+)?`,
called with the input after `0x`/`0X` (`x` is the second matched character).
Note the regex allows at most one mantissa digit before the radix point, and
its exponent digits are `$hex_digit`. -/
def hexNumeralLexeme (x : Char) (l : List Char) : List Char × List Char :=
  let p1 : List Char × List Char :=
    match l with
    | d :: r => if isHexDigit d then ([d], r) else ([], l)
    | [] => ([], [])
  let pDot : List Char × List Char :=
    match p1.2 with
    | '.' :: r => (['.'], r)
    | _ => ([], p1.2)
  let p2 := pDot.2.span isHexDigit
  let pe := expPart (fun c => c == 'p' || c == 'P') isHexDigit p2.2
  ('0' :: x :: (p1.1 ++ pDot.1 ++ p2.1 ++ pe.1), pe.2)

/-! ### The numeral reader -/

/-- `i64::MAX`. -/
def i64Max : Nat := 2 ^ 63 - 1

/-- The exact value of a parsed float: mantissa digits `m` read in base
`mBase` with `len` of them after the radix point, scaled by `sBase ^ e`. -/
def floatVal (m : Nat) (sBase : Nat) (e : Int) (mBase : Nat) (len : Nat) : ℚ :=
  (m : ℚ) * (sBase : ℚ) ^ e / (mBase : ℚ) ^ len

/-- Shared shape of the decimal and hexadecimal numeral parse: mantissa in
base `mBase` (10 or 16), exponent marker `isMark` (`e`/`E` or `p`/`P`),
exponent scaling in base `sBase` (10 or 2), exponent digits written in
decimal. -/
def readNumGeneric (mBase : Nat) (isDig : Char → Bool) (dval : Char → Nat)
    (isMark : Char → Bool) (sBase : Nat) (l : List Char) :
    Except LexerError Token :=
  let p1 := l.span isDig
  let ip := p1.1
  let hasDot : Bool := p1.2.head? = some '.'
  let afterDot := if hasDot then p1.2.tail else p1.2
  let p2 := afterDot.span isDig
  let fp := p2.1
  let rest := p2.2
  if ip.isEmpty ∧ fp.isEmpty then .error .BadNumber
  else if ¬ hasDot ∧ rest.isEmpty then
    let n := digitsVal mBase dval ip
    if n ≤ i64Max then .ok (.Integer n) else .ok (.Float n)
  else
    match rest with
    | [] =>
      .ok (.Float (floatVal (digitsVal mBase dval (ip ++ fp)) sBase 0 mBase fp.length))
    | m :: r =>
      if isMark m then
        let sr : Int × List Char :=
          match r with
          | '+' :: r2 => (1, r2)
          | '-' :: r2 => (-1, r2)
          | _ => (1, r)
        if sr.2.isEmpty ∨ ¬ sr.2.all isDigit then .error .BadNumber
        else
          let e : Int := sr.1 * (digitsVal 10 decDigitVal sr.2 : Int)
          .ok (.Float (floatVal (digitsVal mBase dval (ip ++ fp)) sBase e mBase fp.length))
      else .error .BadNumber

/-- Modelled from the spec: `read_numeral` (lines 420–423) delegates to
`lexer_luster::Lexer::read_numeral`, and module `lexer_luster` is not part
of this source snapshot.  Following spec §4.2: a lexeme with no radix point
and no exponent parses as an integer (by hex rules when `0x`/`0X`-prefixed),
and an integer overflowing the 64-bit range falls through to float parsing;
any other lexeme parses as a float, decimal exponents scaling by powers of
ten and the hex `p`/`P` exponent being a decimal-written power-of-two
exponent, a missing exponent defaulting to 0; a lexeme parsing under
neither rule is a fatal `BadNumber` error.  Float values are exact
rationals in place of IEEE-754 `f64`; every claim evaluated against this
definition involves only float values that `f64` represents exactly and
that correctly-rounded parsing reaches exactly. -/
def read_numeral (s : List Char) : Except LexerError Token :=
  match s with
  | '0' :: x :: rest =>
    if x == 'x' || x == 'X' then
      readNumGeneric 16 isHexDigit hexDigitVal (fun c => c == 'p' || c == 'P') 2 rest
    else
      readNumGeneric 10 isDigit decDigitVal (fun c => c == 'e' || c == 'E') 10 s
  | _ => readNumGeneric 10 isDigit decDigitVal (fun c => c == 'e' || c == 'E') 10 s

/-! ### The automaton -/

/-- The `rule` blocks of the `lexer!` invocation. -/
inductive Rule
  | Init
  | LongStringBracketLeft
  | LongString
  | LongStringBracketRight
  | String
  | UnicodeCodepoint
  | EnterComment
  | Comment
deriving DecidableEq, Repr

/-- Keyword dispatch of rule `Init` (lines 92–113): a maximal identifier
lexeme equal to a keyword yields that keyword's token (keyword patterns
precede the identifier pattern), otherwise `Name` of its bytes. -/
def keywordOrName (s : List Char) : Token :=
  match s with
  | ['a', 'n', 'd'] => .And
  | ['b', 'r', 'e', 'a', 'k'] => .Break
  | ['d', 'o'] => .Do
  | ['e', 'l', 's', 'e'] => .Else
  | ['e', 'l', 's', 'e', 'i', 'f'] => .ElseIf
  | ['e', 'n', 'd'] => .End
  | ['f', 'a', 'l', 's', 'e'] => .False
  | ['f', 'o', 'r'] => .For
  | ['f', 'u', 'n', 'c', 't', 'i', 'o', 'n'] => .Function
  | ['i', 'f'] => .If
  | ['i', 'n'] => .In
  | ['l', 'o', 'c', 'a', 'l'] => .Local
  | ['n', 'i', 'l'] => .Nil
  | ['n', 'o', 't'] => .Not
  | ['o', 'r'] => .Or
  | ['r', 'e', 'p', 'e', 'a', 't'] => .Repeat
  | ['r', 'e', 't', 'u', 'r', 'n'] => .Return
  | ['t', 'h', 'e', 'n'] => .Then
  | ['t', 'r', 'u', 'e'] => .True
  | ['u', 'n', 't', 'i', 'l'] => .Until
  | ['w', 'h', 'i', 'l', 'e'] => .While
  | ['g', 'o', 't', 'o'] => .Goto
  | _ => .Name (strBytes s)

/-- Greedy match of `$whitespace*` where
`let whitespace = [' ' '\t' '\n'] | "\r\n"`; a lone `\r` is not whitespace
and stops the match. -/
def spanWhitespace : List Char → List Char × List Char
  | [] => ([], [])
  | c :: rest =>
    if c == ' ' || c == '\t' || c == '\n' then
      let p := spanWhitespace rest
      (c :: p.1, p.2)
    else if c == '\r' then
      match rest with
      | '\n' :: rest2 =>
        let p := spanWhitespace rest2
        ('\r' :: '\n' :: p.1, p.2)
      | _ => ([], c :: rest)
    else ([], c :: rest)

/-- Result of the `']'` handler of rule `LongStringBracketRight`. -/
inductive BracketRightStep
  /-- Equal counts, `in_comment`: switch to `Init`, no token. -/
  | closeComment
  /-- Equal counts, string: switch to `Init` returning `String(payload)`. -/
  | closeString (payload : List Byte)
  /-- Unequal counts: reset the closing counter and continue matching. -/
  | reenterBody (st : LexerState)
deriving DecidableEq, Repr

/-- The `']'` handler of rule `LongStringBracketRight` (lines 194–211).
`m` is `lexer.match_`, the full lexeme from the opening `[`, including the
`]` just consumed.  On equal equals-counts the region terminates: a comment
yields no token, a string yields the match with the
`[` + eqs + `[` framing and `]` + eqs + `]` framing sliced off (slicing is
on UTF-8 bytes, as in the source).  On unequal counts the closing counter
is reset and scanning continues with no token. -/
def bracketRightRBracket (st : LexerState) (m : List Char) : BracketRightStep :=
  let left_eqs := st.long_string_opening_eqs
  let right_eqs := st.long_string_closing_eqs
  if left_eqs = right_eqs then
    if st.in_comment then
      .closeComment
    else
      let bytes := strBytes m
      .closeString (List.take (bytes.length - right_eqs - 2 - (left_eqs + 2))
        (List.drop (left_eqs + 2) bytes))
  else
    .reenterBody { st with long_string_closing_eqs := 0 }

/-- The `$hex_digit` handler of rule `UnicodeCodepoint` (lines 363–378):
`state.unicode_codepoint *= 16; state.unicode_codepoint += digit` in `u32`
arithmetic, i.e. wrapping modulo `2 ^ 32`. -/
def unicodeCodepointDigit (cp : Nat) (c : Char) : Nat :=
  (cp * 16 + hexDigitVal c) % 2 ^ 32

/-- The `'}'` handler of rule `UnicodeCodepoint` (lines 380–391):
`char::try_from(state.unicode_codepoint).unwrap()` panics on an invalid
scalar value; on success the UTF-8 encoding of the codepoint is appended to
the string buffer and the lexer switches back to rule `String`. -/
def unicodeCodepointClose (st : LexerState) : Except LexgenError LexerState :=
  if isValidScalar st.unicode_codepoint then
    .ok { st with string_buf := st.string_buf ++ utf8Encode st.unicode_codepoint }
  else
    .error .RustPanic

/-- The interpreter of the generated automaton.
`lexGo fuel rule st macc input`: `rule` is the current `rule` block, `st`
the `LexerState`, `macc` the characters of the match in progress
(`lexer.match_`), `input` the remaining input.  It returns all tokens
lexed from here to the end of input.  Reaching end of input inside a rule
other than `Init` (always mid-lexeme, with no accepting state) is lexgen's
`InvalidToken` error, as is a character no pattern of the current rule
matches.  Every step consumes at least one character, so fuel
`input.length + 1` never runs out. -/
def lexGo : Nat → Rule → LexerState → List Char → List Char →
    Except LexgenError (List Token)
  | 0, _, _, _, _ => .error .InvalidToken
  | fuel + 1, rule, st, macc, input =>
    let emit : LexerState → Token → List Char → Except LexgenError (List Token) :=
      fun st' t r => (lexGo fuel .Init st' [] r).map (t :: ·)
    match rule with
    | .Init =>
      match input with
      | [] => .ok []
      | c :: rest =>
        let numeral : List Char → List Char → Except LexgenError (List Token) :=
          fun lexeme r =>
            match read_numeral lexeme with
            | .ok t => emit st t r
            | .error e => .error (.UserError e)
        if c == ' ' || c == '\t' || c == '\n' then lexGo fuel .Init st [] rest
        else if c == '\r' then
          match rest with
          | '\n' :: rest2 => lexGo fuel .Init st [] rest2
          | _ => .error .InvalidToken
        else if c == '+' then emit st .Add rest
        else if c == '*' then emit st .Mul rest
        else if c == '%' then emit st .Mod rest
        else if c == '^' then emit st .Pow rest
        else if c == '#' then emit st .Len rest
        else if c == '(' then emit st .LeftParen rest
        else if c == ')' then emit st .RightParen rest
        else if c == '\x7b' then emit st .LeftBrace rest
        else if c == '\x7d' then emit st .RightBrace rest
        else if c == ']' then emit st .RightBracket rest
        else if c == ';' then emit st .SemiColon rest
        else if c == ',' then emit st .Comma rest
        else if c == '&' then emit st .BitAnd rest
        else if c == '|' then emit st .BitOr rest
        else if c == '-' then
          match rest with
          | '-' :: rest2 => lexGo fuel .EnterComment st ['-', '-'] rest2
          | _ => emit st .Minus rest
        else if c == '/' then
          match rest with
          | '/' :: rest2 => emit st .IDiv rest2
          | _ => emit st .Div rest
        else if c == '=' then
          match rest with
          | '=' :: rest2 => emit st .Equal rest2
          | _ => emit st .Assign rest
        else if c == '~' then
          match rest with
          | '=' :: rest2 => emit st .NotEqual rest2
          | _ => emit st .BitNotXor rest
        else if c == '<' then
          match rest with
          | '=' :: rest2 => emit st .LessEqual rest2
          | '<' :: rest2 => emit st .ShiftLeft rest2
          | _ => emit st .LessThan rest
        else if c == '>' then
          match rest with
          | '=' :: rest2 => emit st .GreaterEqual rest2
          | '>' :: rest2 => emit st .ShiftRight rest2
          | _ => emit st .GreaterThan rest
        else if c == ':' then
          match rest with
          | ':' :: rest2 => emit st .DoubleColon rest2
          | _ => emit st .Colon rest
        else if c == '.' then
          match rest with
          | d :: _ =>
            if isDigit d then
              let p := dotNumeralLexeme rest
              numeral p.1 p.2
            else
              match rest with
              | '.' :: '.' :: rest3 => emit st .Dots rest3
              | '.' :: rest2 => emit st .Concat rest2
              | _ => emit st .Dot rest
          | [] => emit st .Dot rest
        else if c == '"' then
          lexGo fuel .String
            { st with short_string_delim := Quote.Double, string_buf := [] } [c] rest
        else if c == '\'' then
          lexGo fuel .String
            { st with short_string_delim := Quote.Single, string_buf := [] } [c] rest
        else if c == '[' then
          match rest with
          | '[' :: _ | '=' :: _ =>
            lexGo fuel .LongStringBracketLeft
              { st with long_string_opening_eqs := 0, in_comment := false } ['['] rest
          | _ => emit st .LeftBracket rest
        else if isVarInit c then
          let p := rest.span isVarSubseq
          emit st (keywordOrName (c :: p.1)) p.2
        else if isDigit c then
          if c == '0' then
            match rest with
            | x :: rest2 =>
              if x == 'x' || x == 'X' then
                let p := hexNumeralLexeme x rest2
                numeral p.1 p.2
              else
                let p := decNumeralLexeme (c :: rest)
                numeral p.1 p.2
            | [] =>
              let p := decNumeralLexeme (c :: rest)
              numeral p.1 p.2
          else
            let p := decNumeralLexeme (c :: rest)
            numeral p.1 p.2
        else .error .InvalidToken
    | .LongStringBracketLeft =>
      match input with
      | '=' :: rest =>
        lexGo fuel .LongStringBracketLeft
          { st with long_string_opening_eqs := st.long_string_opening_eqs + 1 }
          (macc ++ ['=']) rest
      | '[' :: rest => lexGo fuel .LongString st (macc ++ ['[']) rest
      | _ => .error .InvalidToken
    | .LongString =>
      match input with
      | ']' :: rest =>
        lexGo fuel .LongStringBracketRight
          { st with long_string_closing_eqs := 0 } (macc ++ [']']) rest
      | c :: rest => lexGo fuel .LongString st (macc ++ [c]) rest
      | [] => .error .InvalidToken
    | .LongStringBracketRight =>
      match input with
      | '=' :: rest =>
        lexGo fuel .LongStringBracketRight
          { st with long_string_closing_eqs := st.long_string_closing_eqs + 1 }
          (macc ++ ['=']) rest
      | ']' :: rest =>
        match bracketRightRBracket st (macc ++ [']']) with
        | .closeComment => lexGo fuel .Init st [] rest
        | .closeString payload => emit st (.String payload) rest
        | .reenterBody st' => lexGo fuel .LongStringBracketRight st' (macc ++ [']']) rest
      | c :: rest => lexGo fuel .LongString st (macc ++ [c]) rest
      | [] => .error .InvalidToken
    | .String =>
      let push : Byte → List Char → List Char → Except LexgenError (List Token) :=
        fun b mc r =>
          lexGo fuel .String { st with string_buf := st.string_buf ++ [b] } (macc ++ mc) r
      let wildcard : Char → List Char → Except LexgenError (List Token) :=
        fun ch r =>
          lexGo fuel .String
            { st with string_buf := st.string_buf ++ utf8Encode ch.toNat } (macc ++ [ch]) r
      match input with
      | [] => .error .InvalidToken
      | '"' :: rest =>
        if st.short_string_delim = Quote.Double then
          emit { st with string_buf := [] } (.String st.string_buf) rest
        else push 34 ['"'] rest
      | '\'' :: rest =>
        if st.short_string_delim = Quote.Single then
          emit { st with string_buf := [] } (.String st.string_buf) rest
        else push 39 ['\''] rest
      | '\\' :: rest =>
        match rest with
        | 'a' :: r => push 0x7 ['\\', 'a'] r
        | 'b' :: r => push 0x8 ['\\', 'b'] r
        | 'f' :: r => push 0xc ['\\', 'f'] r
        | 'n' :: r => push 10 ['\\', 'n'] r
        | 'r' :: r => push 13 ['\\', 'r'] r
        | 't' :: r => push 9 ['\\', 't'] r
        | 'v' :: r => push 0xb ['\\', 'v'] r
        | '\\' :: r => push 92 ['\\', '\\'] r
        | '"' :: r => push 34 ['\\', '"'] r
        | '\'' :: r => push 39 ['\\', '\''] r
        | '\n' :: r => push 10 ['\\', '\n'] r
        | 'z' :: r =>
          let p := spanWhitespace r
          lexGo fuel .String st [] p.2
        | 'x' :: h1 :: h2 :: r =>
          if isHexDigit h1 && isHexDigit h2 then
            push (hexDigitVal h1 * 16 + hexDigitVal h2) ['\\', 'x', h1, h2] r
          else wildcard '\\' rest
        | 'u' :: c2 :: r =>
          if c2 == '\x7b' then
            lexGo fuel .UnicodeCodepoint { st with unicode_codepoint := 0 }
              (macc ++ ['\\', 'u', '\x7b']) r
          else wildcard '\\' rest
        | d1 :: rest2 =>
          if isDigit d1 then
            match rest2 with
            | d2 :: d3 :: r =>
              if isDigit d2 && isDigit d3 then
                push ((decDigitVal d1 * 100 + decDigitVal d2 * 10 + decDigitVal d3) % 256)
                  ['\\', d1, d2, d3] r
              else if isDigit d2 then
                push (decDigitVal d1 * 10 + decDigitVal d2) ['\\', d1, d2] (d3 :: r)
              else push (decDigitVal d1) ['\\', d1] (d2 :: d3 :: r)
            | [d2] =>
              if isDigit d2 then push (decDigitVal d1 * 10 + decDigitVal d2) ['\\', d1, d2] []
              else push (decDigitVal d1) ['\\', d1] [d2]
            | [] => push (decDigitVal d1) ['\\', d1] []
          else wildcard '\\' rest
        | [] => wildcard '\\' []
      | c :: rest => wildcard c rest
    | .UnicodeCodepoint =>
      match input with
      | '\x7d' :: rest =>
        match unicodeCodepointClose st with
        | .ok st' => lexGo fuel .String st' (macc ++ ['\x7d']) rest
        | .error e => .error e
      | c :: rest =>
        if isHexDigit c then
          lexGo fuel .UnicodeCodepoint
            { st with unicode_codepoint := unicodeCodepointDigit st.unicode_codepoint c }
            (macc ++ [c]) rest
        else .error .InvalidToken
      | [] => .error .InvalidToken
    | .EnterComment =>
      match input with
      | '[' :: rest =>
        match rest with
        | '[' :: _ | '=' :: _ =>
          lexGo fuel .LongStringBracketLeft
            { st with long_string_opening_eqs := 0, in_comment := true }
            (macc ++ ['[']) rest
        | _ => lexGo fuel .Comment st (macc ++ ['[']) rest
      | c :: rest => lexGo fuel .Comment st (macc ++ [c]) rest
      | [] => .error .InvalidToken
    | .Comment =>
      match input with
      | '\n' :: rest => lexGo fuel .Init st [] rest
      | c :: rest => lexGo fuel .Comment st (macc ++ [c]) rest
      | [] => .error .InvalidToken

/-- Lex a complete input from rule `Init` with a default state, returning
every token (the caller's pull-based iteration run to completion). -/
def lex (input : List Char) : Except LexgenError (List Token) :=
  lexGo (input.length + 1) .Init initState [] input

/-- Whether a `']'`-handler step terminates the bracketed region (switches
back to `Init`), rather than continuing to scan. -/
def BracketRightStep.closes : BracketRightStep → Bool
  | .reenterBody _ => false
  | _ => true

/-- The token, if any, produced by a `']'`-handler step. -/
def BracketRightStep.token? : BracketRightStep → Option Token
  | .closeString p => some (Token.String p)
  | _ => none

/-- Whether a lexing outcome is a constructed `LexerError` value
(lexgen's `UserError`), as opposed to success, lexgen's built-in
`InvalidToken`, or a panic. -/
def isUserError : Except LexgenError (List Token) → Bool
  | .error (.UserError _) => true
  | _ => false

/-! ### Hexadecimal rendering and accumulation, for the `\u` round trip -/

/-- Lowercase hexadecimal digit character for a value below 16. -/
def hexDigitChar (d : Nat) : Char :=
  if d < 10 then Char.ofNat ('0'.toNat + d) else Char.ofNat ('a'.toNat + (d - 10))

/-- Big-endian lowercase hexadecimal rendering of a value. -/
def hexRender (v : Nat) : List Char :=
  if v = 0 then ['0'] else ((Nat.digits 16 v).map hexDigitChar).reverse

/-- The unicode-codepoint accumulator of rule `UnicodeCodepoint`, run over a
digit-character sequence from the `\u{` handler's reset value 0. -/
def hexAccum (ds : List Char) : Nat := ds.foldl unicodeCodepointDigit 0

/-! ### Supporting lemmas -/

/-- `hexDigitVal` inverts `hexDigitChar` on digit values. -/
theorem hexDigitVal_hexDigitChar (d : Nat) (h : d < 16) :
    hexDigitVal (hexDigitChar d) = d := by
  interval_cases d <;> decide

/-- The exact (non-wrapping) base-16 accumulation is monotone in its seed. -/
theorem le_foldl_mul16_add (ds : List Nat) (a : Nat) :
    a ≤ ds.foldl (fun x d => x * 16 + d) a := by
  induction ds generalizing a with
  | nil => exact Nat.le_refl a
  | cons d tl ih => exact Nat.le_trans (by omega) (ih (a * 16 + d))

/-- The wrapping (`% 2 ^ 32`) base-16 accumulation agrees with the exact one
as long as the exact result stays below `2 ^ 32`. -/
theorem foldl_mod_eq_foldl (ds : List Nat) (a : Nat)
    (h : ds.foldl (fun x d => x * 16 + d) a < 2 ^ 32) :
    ds.foldl (fun x d => (x * 16 + d) % 2 ^ 32) a =
      ds.foldl (fun x d => x * 16 + d) a := by
  induction ds generalizing a with
  | nil => rfl
  | cons d tl ih =>
    have hstep : a * 16 + d < 2 ^ 32 :=
      Nat.lt_of_le_of_lt (le_foldl_mul16_add tl (a * 16 + d)) h
    simp only [List.foldl_cons, Nat.mod_eq_of_lt hstep]
    exact ih (a * 16 + d) h

/-- Running the codepoint accumulator over rendered digit characters is the
wrapping base-16 accumulation over the digit values. -/
theorem foldl_unicodeCodepointDigit_map (ds : List Nat) (hds : ∀ d ∈ ds, d < 16)
    (a : Nat) :
    (ds.map hexDigitChar).foldl unicodeCodepointDigit a =
      ds.foldl (fun x d => (x * 16 + d) % 2 ^ 32) a := by
  induction ds generalizing a with
  | nil => rfl
  | cons d tl ih =>
    simp only [List.map_cons, List.foldl_cons]
    rw [show unicodeCodepointDigit a (hexDigitChar d) = (a * 16 + d) % 2 ^ 32 from by
      unfold unicodeCodepointDigit
      rw [hexDigitVal_hexDigitChar d (hds d (List.mem_cons_self d tl))]]
    exact ih (fun x hx => hds x (List.mem_cons_of_mem d hx)) _

/-- Big-endian exact accumulation of a little-endian digit list. -/
theorem foldl_reverse_ofDigits (L : List Nat) (a : Nat) :
    L.reverse.foldl (fun x d => x * 16 + d) a =
      a * 16 ^ L.length + Nat.ofDigits 16 L := by
  induction L generalizing a with
  | nil => simp
  | cons d tl ih =>
    simp only [List.reverse_cons, List.foldl_append, List.foldl_cons, List.foldl_nil,
      ih a, Nat.ofDigits_cons, List.length_cons, pow_succ]
    ring


theorem hexAccum_hexRender (v : Nat) (hv : v < 2 ^ 32) :
    hexAccum (hexRender v) = v := by
  by_cases h0 : v = 0
  · subst h0; decide
  · unfold hexAccum hexRender
    rw [if_neg h0, ← List.map_reverse]
    rw [foldl_unicodeCodepointDigit_map _
      (fun d hd => Nat.digits_lt_base (by norm_num) (List.mem_reverse.mp hd))]
    have hexact : (Nat.digits 16 v).reverse.foldl (fun x d => x * 16 + d) 0 = v := by
      rw [foldl_reverse_ofDigits, Nat.ofDigits_digits]
      omega
    rw [foldl_mod_eq_foldl _ _ (by rw [hexact]; exact hv), hexact]

theorem utf8Decode_utf8Encode (v : Nat) (hv : v < 0x110000) :
    utf8Decode (utf8Encode v) = some v := by
  unfold utf8Encode
  by_cases h1 : v < 0x80
  · rw [if_pos h1]
    show utf8Decode [v] = some v
    simp only [utf8Decode]
    rw [if_pos h1]
  · rw [if_neg h1]
    by_cases h2 : v < 0x800
    · rw [if_pos h2]
      show utf8Decode [0xC0 + v / 64, 0x80 + v % 64] = some v
      simp only [utf8Decode]
      split
      · exact congrArg some (by omega)
      · rename_i hcond
        have harg : 192 ≤ 192 + v / 64 ∧ 192 + v / 64 < 224 ∧ 128 ≤ 128 + v % 64 ∧
            128 + v % 64 < 192 ∧ 128 ≤ (192 + v / 64 - 192) * 64 + (128 + v % 64 - 128) := by
          omega
        exact (hcond harg).elim
    · rw [if_neg h2]
      by_cases h3 : v < 0x10000
      · rw [if_pos h3]
        show utf8Decode [0xE0 + v / 4096, 0x80 + v / 64 % 64, 0x80 + v % 64] = some v
        simp only [utf8Decode]
        split
        · exact congrArg some (by omega)
        · rename_i hcond
          have harg : 224 ≤ 224 + v / 4096 ∧ 224 + v / 4096 < 240 ∧
              128 ≤ 128 + v / 64 % 64 ∧ 128 + v / 64 % 64 < 192 ∧
              128 ≤ 128 + v % 64 ∧ 128 + v % 64 < 192 ∧
              2048 ≤ (224 + v / 4096 - 224) * 4096 + (128 + v / 64 % 64 - 128) * 64 +
                (128 + v % 64 - 128) := by
            omega
          exact (hcond harg).elim
      · rw [if_neg h3]
        show utf8Decode [0xF0 + v / 262144, 0x80 + v / 4096 % 64,
          0x80 + v / 64 % 64, 0x80 + v % 64] = some v
        simp only [utf8Decode]
        split
        · exact congrArg some (by omega)
        · rename_i hcond
          have harg : 240 ≤ 240 + v / 262144 ∧ 240 + v / 262144 < 248 ∧
              128 ≤ 128 + v / 4096 % 64 ∧ 128 + v / 4096 % 64 < 192 ∧
              128 ≤ 128 + v / 64 % 64 ∧ 128 + v / 64 % 64 < 192 ∧
              128 ≤ 128 + v % 64 ∧ 128 + v % 64 < 192 ∧
              65536 ≤ (240 + v / 262144 - 240) * 262144 + (128 + v / 4096 % 64 - 128) * 4096 +
                (128 + v / 64 % 64 - 128) * 64 + (128 + v % 64 - 128) := by
            omega
          exact (hcond harg).elim

/-! ### The claims -/

/-- C1: a long-bracketed region opened with `[` + n `=` + `[` terminates at
a closing candidate `]` + k `=` + `]` exactly when k = n; when the counts
differ the step produces no token, resets the closing counter, and
continues scanning with the partial closer part of the accumulated match. -/
theorem long_bracket_close_iff_eqs_match (st : LexerState) (m : List Char) :
    ((bracketRightRBracket st m).closes = true ↔
      st.long_string_closing_eqs = st.long_string_opening_eqs) ∧
    (st.long_string_closing_eqs ≠ st.long_string_opening_eqs →
      (bracketRightRBracket st m).token? = none ∧
      bracketRightRBracket st m =
        BracketRightStep.reenterBody { st with long_string_closing_eqs := 0 }) := by
  by_cases h : st.long_string_opening_eqs = st.long_string_closing_eqs
  · refine ⟨⟨fun _ => h.symm, fun _ => ?_⟩, fun hne => absurd h.symm hne⟩
    by_cases hc : st.in_comment <;>
      simp [bracketRightRBracket, h, hc, BracketRightStep.closes]
  · refine ⟨⟨fun hcl => ?_, fun heq => absurd heq.symm h⟩, fun _ => ?_⟩
    · rw [show bracketRightRBracket st m =
          BracketRightStep.reenterBody { st with long_string_closing_eqs := 0 } from by
        simp [bracketRightRBracket, h]] at hcl
      exact absurd hcl (by simp [BracketRightStep.closes])
    · constructor
      · rw [show bracketRightRBracket st m =
            BracketRightStep.reenterBody { st with long_string_closing_eqs := 0 } from by
          simp [bracketRightRBracket, h]]
        rfl
      · simp [bracketRightRBracket, h]

/-- Witness for `long_bracket_close_iff_eqs_match`: at a state with opening
count 1 and closing count 2 the mismatch branch applies. -/
theorem long_bracket_close_iff_eqs_match_witness :
    (2 : Nat) ≠ 1 ∧
    (bracketRightRBracket
        { long_string_opening_eqs := 1, long_string_closing_eqs := 2,
          short_string_delim := Quote.Single, string_buf := [],
          in_comment := false, unicode_codepoint := 0 } [']']).token? = none :=
  ⟨by decide,
    ((long_bracket_close_iff_eqs_match
        { long_string_opening_eqs := 1, long_string_closing_eqs := 2,
          short_string_delim := Quote.Single, string_buf := [],
          in_comment := false, unicode_codepoint := 0 } [']']).2 (by decide)).1⟩

/-- C2 counterexample: on the spec's stated input `[=[hi]==]==]` the lexer
reaches end of input still inside the long bracket (no closer with exactly
one `=` ever occurs) and fails, instead of producing `String("hi]==")`. -/
theorem lex_spec_c2_input_errors :
    lex ['[', '=', '[', 'h', 'i', ']', '=', '=', ']', '=', '=', ']'] =
      .error .InvalidToken := rfl

/-- C2 (amended): on the input `[=[hi]==]=]` the mismatched closer
candidate `]==]` (two `=`s against opening count one) is folded into the
body and the region is closed by the later matching `]=]`, yielding the
single token `String("hi]==")` (bytes of `h i ] = =`). -/
theorem lex_long_string_mismatched_closer_folded :
    lex ['[', '=', '[', 'h', 'i', ']', '=', '=', ']', '=', ']'] =
      .ok [Token.String [104, 105, 93, 61, 61]] := rfl

/-- C3: lexing `"\u{110000}"` — a `\u` escape whose value 0x110000 lies
outside the Unicode scalar range — aborts abnormally with a Rust panic
(`char::try_from(..).unwrap()`), and in particular does not return any
constructed `LexerError` such as `EscapeUnicodeInvalid`. -/
theorem lex_unicode_escape_out_of_range_panics :
    lex ['"', '\\', 'u', '\x7b', '1', '1', '0', '0', '0', '0', '\x7d', '"'] =
      .error .RustPanic ∧
    isUserError
      (lex ['"', '\\', 'u', '\x7b', '1', '1', '0', '0', '0', '0', '\x7d', '"']) =
      false := ⟨rfl, rfl⟩

/-- C4: the decimal escape `\65` (value 65 ≤ 255) appends exactly the one
byte 65, but `\999` (value 999 > 255) wraps in the `u8` arithmetic of the
handler to the byte 231 = 999 % 256 and lexing succeeds — no
`EscapeDecimalTooLarge` error is produced. -/
theorem lex_decimal_escape_wraps_not_error :
    lex ['"', '\\', '6', '5', '"'] = .ok [Token.String [65]] ∧
    lex ['"', '\\', '9', '9', '9', '"'] = .ok [Token.String [231]] ∧
    isUserError (lex ['"', '\\', '9', '9', '9', '"']) = false := ⟨rfl, rfl, rfl⟩

/-- C5: a raw newline inside a short string is accepted and appended
verbatim (the `_` wildcard of rule `String` matches it), yielding
`String("a\nb")` with no error; reaching end of input inside a short
string fails with lexgen's generic `InvalidToken`, not with a constructed
`UnfinishedShortString` error. -/
theorem lex_raw_newline_in_short_string_accepted :
    lex ['"', 'a', '\n', 'b', '"'] = .ok [Token.String [97, 10, 98]] ∧
    lex ['"', 'a'] = .error .InvalidToken ∧
    isUserError (lex ['"', 'a']) = false := ⟨rfl, rfl, rfl⟩

/-- C6: the unrecognized escape `\q` in a short string is not rejected:
maximal munch falls back to the `_` wildcard, which appends the backslash
(byte 92) and then `q` (byte 113) verbatim, and lexing succeeds with no
`InvalidEscape` error. -/
theorem lex_invalid_escape_appended_verbatim :
    lex ['"', '\\', 'q', '"'] = .ok [Token.String [92, 113]] ∧
    isUserError (lex ['"', '\\', 'q', '"']) = false := ⟨rfl, rfl⟩

/-- C7: `0x1A` lexes to `Integer(26)` (hex rules), `3.14e2` to
`Float(314)` (decimal power-of-ten exponent), and `0x1p4` to `Float(16)`
(the hex `p` exponent is a power of two). -/
theorem lex_numeral_scenarios :
    lex ['0', 'x', '1', 'A'] = .ok [Token.Integer 26] ∧
    lex ['3', '.', '1', '4', 'e', '2'] = .ok [Token.Float 314] ∧
    lex ['0', 'x', '1', 'p', '4'] = .ok [Token.Float 16] := by
  refine ⟨rfl, ?_, ?_⟩
  · have h : lex ['3', '.', '1', '4', 'e', '2'] =
        .ok [Token.Float (floatVal 314 10 2 10 2)] := rfl
    rw [h]
    norm_num [floatVal]
  · have h : lex ['0', 'x', '1', 'p', '4'] =
        .ok [Token.Float (floatVal 1 2 4 16 0)] := rfl
    rw [h]
    norm_num [floatVal]

/-- C8: for every valid Unicode scalar value v, the codepoint accumulator
run over the hexadecimal rendering of v recovers v, the `'}'` handler then
appends exactly the UTF-8 encoding of v to the string buffer (for any
surrounding state), and UTF-8 decoding of those bytes reconstructs v. -/
theorem unicode_escape_utf8_roundtrip (v : Nat) (h : isValidScalar v = true) :
    hexAccum (hexRender v) = v ∧
    (∀ st : LexerState,
      unicodeCodepointClose { st with unicode_codepoint := v } =
        .ok { st with unicode_codepoint := v,
                      string_buf := st.string_buf ++ utf8Encode v }) ∧
    utf8Decode (utf8Encode v) = some v := by
  have hlt : v < 0x110000 := by
    have := of_decide_eq_true h
    exact this.1
  refine ⟨hexAccum_hexRender v (by omega), fun st => ?_, utf8Decode_utf8Encode v hlt⟩
  simp [unicodeCodepointClose, h]

/-- Witness for `unicode_escape_utf8_roundtrip` at the scalar value 0x263A. -/
theorem unicode_escape_utf8_roundtrip_witness :
    isValidScalar 0x263A = true ∧
    hexAccum (hexRender 0x263A) = 0x263A ∧
    utf8Decode (utf8Encode 0x263A) = some 0x263A :=
  ⟨by decide,
    (unicode_escape_utf8_roundtrip 0x263A (by decide)).1,
    (unicode_escape_utf8_roundtrip 0x263A (by decide)).2.2⟩

/-- C9: long brackets do not nest — inside `[[a[[b]]` the inner `[[` is
accumulated as literal content with no level tracking, and the single
token `String("a[[b")` (bytes of `a [ [ b`) results. -/
theorem lex_long_brackets_do_not_nest :
    lex ['[', '[', 'a', '[', '[', 'b', ']', ']'] =
      .ok [Token.String [97, 91, 91, 98]] := rfl

/-- C10: a lone carriage return is not whitespace: in `Init` it matches no
pattern (only space, tab, line feed and the two-character CRLF are
skipped) and lexing errors rather than ending with zero tokens. -/
theorem lex_lone_carriage_return_errors :
    lex ['\r'] = .error .InvalidToken ∧
    lex [' ', '\t', '\n'] = .ok [] ∧
    lex ['\r', '\n'] = .ok [] := ⟨rfl, rfl, rfl⟩

end LexerBench
